import Mathlib

/-!
Shallow embedding of `src/index.ts` of the axios-form-handler repository:
the `Form` class (field state, error mapping, processing flag, submission
lifecycle), the module-level helpers `useForm` and `setFormAxios`, and the
static shared axios client slot.

JavaScript objects used as string-keyed records are embedded as ordered
association lists (`JObj`) with JS-object semantics: writing an existing
key updates it in place, writing a new key appends it, `delete` removes it,
and `Object.keys` lists the keys in insertion order. Field values
(`Record<string, any>`, JSON-serializable) are embedded as `JValue`.
JavaScript `null` and `undefined` stored as an error message are both
embedded as `Option.none` (every operation of the source treats them
alike: the key is present, the value is not a string message).

The asynchronous request is embedded by making the settled HTTP outcome an
explicit input (`HttpOutcome`) and recording the callback invocations the
source performs as an ordered list of `Event`s; `ResponseOption` records
which of the four optional callbacks the caller supplied. The static
`Form.http` slot and `axios.create` are embedded as an explicit
`GlobalState` threaded through `Form.request`, with axios instances
represented by identity tokens (`Nat`) handed out by a fresh-id counter.
-/

set_option autoImplicit false

/-- A JSON-serializable field value (`any` in the source's
`Record<string, any>`), restricted to atoms, which is all the claims need. -/
inductive JValue where
  | str : String → JValue
  | num : Int → JValue
  | bool : Bool → JValue
  | null : JValue
deriving DecidableEq

/-- A JavaScript object used as a string-keyed record, in insertion order. -/
abbrev JObj (β : Type) : Type := List (String × β)

/-- `obj[k]`: value of the first entry with key `k`. -/
def alookup {β : Type} : JObj β → String → Option β
  | [], _ => none
  | (k0, v0) :: rest, k => if k0 = k then some v0 else alookup rest k

/-- `obj[k] = v` on a JS object: update the existing entry in place, or
append a new one. -/
def ainsert {β : Type} : JObj β → String → β → JObj β
  | [], k, v => [(k, v)]
  | (k0, v0) :: rest, k, v =>
    if k0 = k then (k0, v) :: rest else (k0, v0) :: ainsert rest k v

/-- `Object.prototype.hasOwnProperty.call(obj, k)`. -/
def ahas {β : Type} (l : JObj β) (k : String) : Bool :=
  (alookup l k).isSome

/-- `delete obj[k]`. -/
def aerase {β : Type} (l : JObj β) (k : String) : JObj β :=
  l.filter (fun kv => kv.1 ≠ k)

/-- `Object.keys(obj)`. -/
def akeys {β : Type} (l : JObj β) : List String :=
  l.map (fun kv => kv.1)

/-- The `Form` class state: `_initialData` (the `Object.assign({}, fields)`
copy captured by the constructor), `_fields` (the live values), `errors`
(field name to message, `none` embedding a stored `null`/`undefined`), and
the `processing` flag. -/
structure Form where
  initialData : JObj JValue
  fieldsData : JObj JValue
  errors : JObj (Option String)
  processing : Bool
deriving DecidableEq

/-- The `Form` constructor: copy `fields` into `_initialData` and
`_fields`, and for each key (in order) set `this.errors[key] = null`.
`useForm(fields)` is the exported wrapper around `new Form(fields)`. -/
def useForm (fields : JObj JValue) : Form :=
  { initialData := fields
    fieldsData := fields
    errors := (akeys fields).foldl (fun e k => ainsert e k none) []
    processing := false }

/-- The per-field accessor getter installed by the constructor:
`get() { return this._fields[key]; }`. -/
def Form.getField (f : Form) (k : String) : Option JValue :=
  alookup f.fieldsData k

/-- The per-field accessor setter installed by the constructor:
`set(value)` writes `this._fields[key] = value` and, when
`hasOwnProperty(this.errors, key)`, deletes `this.errors[key]`. -/
def Form.setField (f : Form) (k : String) (v : JValue) : Form :=
  { f with
    fieldsData := ainsert f.fieldsData k v
    errors := if ahas f.errors k then aerase f.errors k else f.errors }

/-- The `fields` getter: `return this._fields;` — it returns the internal
object itself, not a copy. -/
def Form.fields (f : Form) : JObj JValue :=
  f.fieldsData

/-- Because the `fields` getter returns the internal `_fields` object
itself, a caller writing `form.fields[k] = v` mutates `_fields` directly,
bypassing the per-field accessor setter: `errors` is untouched. -/
def Form.writeThroughFields (f : Form) (k : String) (v : JValue) : Form :=
  { f with fieldsData := ainsert f.fieldsData k v }

/-- `get hasErrors(): boolean { return Object.keys(this.errors).length > 0; }` -/
def Form.hasErrors (f : Form) : Bool :=
  (akeys f.errors).length > 0

/-- `clearErrors()`: `this.errors = {};` (returns `this`). -/
def Form.clearErrors (f : Form) : Form :=
  { f with errors := [] }

/-- `setError` with a string key: `this.errors = Object.assign({},
this.errors, [key]: message)` — insert or update the key, the message
possibly `null`/`undefined` (embedded as `none`). -/
def Form.setErrorSingle (f : Form) (k : String) (message : Option String) : Form :=
  { f with errors := ainsert f.errors k message }

/-- `setError` with an object key: for each entry, recurse with
`key[newKey][0]` — the first element of the message list (`undefined`,
i.e. `none`, when the list is empty). -/
def Form.setErrorBulk (f : Form) (key : JObj (List String)) : Form :=
  key.foldl (fun acc kv => acc.setErrorSingle kv.1 kv.2.head?) f

/-- `reset()`: `this._fields = Object.assign({}, this._initialData)`, then
for each key of the restored `_fields` assign `this[key] =
this._fields[key]` (which runs the accessor setter), then `clearErrors()`;
the method returns `this`. -/
def Form.reset (f : Form) : Form :=
  let f1 : Form := { f with fieldsData := f.initialData }
  let f2 : Form := (akeys f1.fieldsData).foldl
    (fun acc k =>
      match acc.getField k with
      | some v => acc.setField k v
      | none => acc) f1
  f2.clearErrors

/-- The `ResponseOption` argument of the submission methods, recording
which of the four optional callbacks the caller supplied. -/
structure ResponseOption where
  onSuccess : Bool
  onValidationErrors : Bool
  onError : Bool
  onFinish : Bool
deriving DecidableEq

/-- The parsed body of an error response, as the catch handler reads it:
only its optional `errors` field (field name to list of messages) is
consulted; `none` embeds an absent or falsy `errors` field. -/
structure ErrBody where
  errors : Option (JObj (List String))
deriving DecidableEq

/-- `error.response`: a status code and a parsed body; `data = none`
embeds a falsy (missing or null) response body. -/
structure AxiosResponse where
  status : Nat
  data : Option ErrBody
deriving DecidableEq

/-- An `AxiosError`: `response` is absent for network-level failures. -/
structure AxiosErr where
  response : Option AxiosResponse
deriving DecidableEq

/-- The settled outcome of the issued HTTP request: the promise either
fulfills with a response body or rejects with an `AxiosError`. -/
inductive HttpOutcome where
  | success (body : JValue)
  | failure (error : AxiosErr)
deriving DecidableEq

/-- A callback invocation performed by the request pipeline, with the
argument the source passes (`onFinish` is invoked with no arguments). -/
inductive Event where
  | onSuccess (body : JValue)
  | onValidationErrors (errs : JObj (Option String))
  | onError (error : AxiosErr)
  | onFinish
deriving DecidableEq

/-- The `then`/`catch` handlers of `request`, run once the outcome
settles. `then`: invoke `onSuccess` with the body if supplied. `catch`:
if `error.response` exists with status 422, bulk-`setError` from the
body's `errors` field when that field is truthy, invoke
`onValidationErrors` with `this.errors` if supplied, and return;
otherwise invoke `onError` with the error if supplied. -/
def Form.settleBranch (f : Form) (options : ResponseOption) (out : HttpOutcome) :
    Form × List Event :=
  match out with
  | HttpOutcome.success body =>
    (f, if options.onSuccess then [Event.onSuccess body] else [])
  | HttpOutcome.failure error =>
    match error.response with
    | some resp =>
      if resp.status = 422 then
        let f1 : Form :=
          match resp.data with
          | some validationErrors =>
            match validationErrors.errors with
            | some em => f.setErrorBulk em
            | none => f
          | none => f
        (f1, if options.onValidationErrors then [Event.onValidationErrors f1.errors] else [])
      else
        (f, if options.onError then [Event.onError error] else [])
    | none =>
      (f, if options.onError then [Event.onError error] else [])

/-- The full settle pipeline: the `then`/`catch` branch, followed by the
`finally` handler, which sets `processing = false` and then invokes
`onFinish` if supplied. -/
def Form.requestSettle (f : Form) (options : ResponseOption) (out : HttpOutcome) :
    Form × List Event :=
  let branch : Form × List Event := f.settleBranch options out
  ({ branch.1 with processing := false },
   branch.2 ++ (if options.onFinish then [Event.onFinish] else []))

/-- The static `Form.http` slot and the fresh-instance counter that embeds
`axios.create`: axios instances are identity tokens (`Nat`). -/
structure GlobalState where
  http : Option Nat
  nextClient : Nat
deriving DecidableEq

/-- `axios.create(...)`: allocate a fresh client instance. -/
def axiosCreate (g : GlobalState) : GlobalState × Nat :=
  ({ g with nextClient := g.nextClient + 1 }, g.nextClient)

/-- `Form.setAxiosInstance(axiosInstance)`: store the client in the static
slot. -/
def setAxiosInstance (g : GlobalState) (c : Nat) : GlobalState :=
  { g with http := some c }

/-- The exported `setFormAxios(axios)`: forwards to
`Form.setAxiosInstance`. -/
def setFormAxios (g : GlobalState) (c : Nat) : GlobalState :=
  setAxiosInstance g c

/-- The guard at the top of `request`: `if (!Form.http)
Form.setAxiosInstance(axios.create(...))`; the request then uses
`Form.http!`. Returns the updated global state and the client used. -/
def ensureHttp (g : GlobalState) : GlobalState × Nat :=
  match g.http with
  | some c => (g, c)
  | none =>
    let created := axiosCreate g
    (setAxiosInstance created.1 created.2, created.2)

/-- The axios request config `method, url, ...data` built by `request`:
the `data` argument is either the empty object (spread adds nothing, no
body: embedded as `none`) or `data: fields` (spread contributes a `data`
body: embedded as `some fields`), which are the only two shapes the
dispatchers pass. -/
structure AxiosConfig where
  method : String
  url : String
  data : Option (JObj JValue)
deriving DecidableEq

/-- Everything observable about one `request` call: the global state after
the client-slot guard, the client instance used, the config handed to
`http.request`, the form state after the pipeline settles, and the
callback invocations in order. -/
structure RequestResult where
  globalAfter : GlobalState
  client : Nat
  config : AxiosConfig
  form : Form
  events : List Event
deriving DecidableEq

/-- `request(method, url, data, options)` with the settled outcome made
explicit: ensure the static client exists, set `processing = true`, run
`clearErrors()`, build the config for `Form.http!.request`, and run the
settle pipeline. -/
def Form.request (f : Form) (g : GlobalState) (method url : String)
    (data : Option (JObj JValue)) (options : ResponseOption)
    (out : HttpOutcome) : RequestResult :=
  let ensured := ensureHttp g
  let f1 : Form := { f with processing := true }
  let f2 : Form := f1.clearErrors
  let config : AxiosConfig := { method := method, url := url, data := data }
  let settled := f2.requestSettle options out
  { globalAfter := ensured.1
    client := ensured.2
    config := config
    form := settled.1
    events := settled.2 }

/-- `post(route, options)`: `this.request('post', route, data:
this.fields, options)`. -/
def Form.post (f : Form) (g : GlobalState) (route : String)
    (options : ResponseOption) (out : HttpOutcome) : RequestResult :=
  f.request g "post" route (some f.fields) options out

/-- `put(route, options)`: `this.request('put', route, data: this.fields,
options)`. -/
def Form.put (f : Form) (g : GlobalState) (route : String)
    (options : ResponseOption) (out : HttpOutcome) : RequestResult :=
  f.request g "put" route (some f.fields) options out

/-- `patch(route, options)`: `this.request('patch', route, data:
this.fields, options)`. -/
def Form.patch (f : Form) (g : GlobalState) (route : String)
    (options : ResponseOption) (out : HttpOutcome) : RequestResult :=
  f.request g "patch" route (some f.fields) options out

/-- `delete(route, options)`: `this.request('delete', route, empty object,
options)` — no body. -/
def Form.delete (f : Form) (g : GlobalState) (route : String)
    (options : ResponseOption) (out : HttpOutcome) : RequestResult :=
  f.request g "delete" route none options out

/-- One client-visible mutation of a form after construction: a write to a
declared field's property, a single or bulk `setError`, `clearErrors`, the
form-state effect of one settled submission, or `reset`. -/
inductive FormOp where
  | write (k : String) (v : JValue)
  | setErr (k : String) (m : Option String)
  | setErrBulk (em : JObj (List String))
  | clearErrs
  | submit (options : ResponseOption) (out : HttpOutcome)
  | doReset
deriving DecidableEq

/-- Apply one `FormOp` to the form state. The `submit` case is the form
part of `Form.request`: `processing = true`, `clearErrors()`, then the
settle pipeline. -/
def Form.applyOp (f : Form) : FormOp → Form
  | FormOp.write k v => f.setField k v
  | FormOp.setErr k m => f.setErrorSingle k m
  | FormOp.setErrBulk em => f.setErrorBulk em
  | FormOp.clearErrs => f.clearErrors
  | FormOp.submit options out =>
    (Form.requestSettle (Form.clearErrors { f with processing := true }) options out).1
  | FormOp.doReset => f.reset

/-- Apply a sequence of `FormOp`s in order. -/
def Form.applyOps (f : Form) (ops : List FormOp) : Form :=
  ops.foldl Form.applyOp f

/-- A `write` op targets a declared field (the per-field accessor exists
only for keys declared at construction). -/
def FormOp.writeOk (keys : List String) : FormOp → Bool
  | FormOp.write k _ => keys.contains k
  | _ => true

/-- Every `write` in the op sequence targets a declared field. -/
def opsWriteOk (keys : List String) (ops : List FormOp) : Bool :=
  ops.all (FormOp.writeOk keys)

/-- A failure the catch handler routes to `onError`: no response at all,
or a response whose status differs from 422. -/
def errOtherFailure (e : AxiosErr) : Bool :=
  match e.response with
  | none => true
  | some r => r.status != 422

/-- A 422 failure whose body carries no recognizable `errors` mapping:
the response body is falsy, or its `errors` field is absent/falsy. -/
def errMalformed422 (e : AxiosErr) : Bool :=
  match e.response with
  | none => false
  | some r =>
    (r.status == 422) &&
      (match r.data with
       | none => true
       | some b => b.errors.isNone)

/-! ## Helper lemmas about the JS-object operations -/

theorem alookup_ainsert_self {β : Type} (l : JObj β) (k : String) (v : β) :
    alookup (ainsert l k v) k = some v := by
  induction l with
  | nil => simp [ainsert, alookup]
  | cons hd tl ih =>
    by_cases h : hd.1 = k
    · simp [ainsert, alookup, h]
    · simp [ainsert, alookup, h, ih]

theorem alookup_aerase {β : Type} (l : JObj β) (k : String) :
    alookup (aerase l k) k = none := by
  induction l with
  | nil => simp [aerase, alookup]
  | cons hd tl ih =>
    by_cases h : hd.1 = k
    · simpa [aerase, h] using ih
    · simpa [aerase, alookup, h] using ih

theorem ahas_aerase {β : Type} (l : JObj β) (k : String) :
    ahas (aerase l k) k = false := by
  simp [ahas, alookup_aerase]

theorem ainsert_length_pos {β : Type} (l : JObj β) (k : String) (v : β) :
    0 < (ainsert l k v).length := by
  cases l with
  | nil => simp [ainsert]
  | cons hd tl =>
    by_cases h : hd.1 = k <;> simp [ainsert, h]

theorem ainsert_of_alookup_eq {β : Type} (l : JObj β) (k : String) (v : β)
    (h : alookup l k = some v) : ainsert l k v = l := by
  induction l with
  | nil => simp [alookup] at h
  | cons hd tl ih =>
    obtain ⟨k0, v0⟩ := hd
    by_cases hk : k0 = k
    · simp [alookup, hk] at h
      simp [ainsert, hk, h]
    · simp [alookup, hk] at h
      simp [ainsert, hk, ih h]

theorem ainsert_of_alookup_none {β : Type} (l : JObj β) (k : String) (v : β)
    (h : alookup l k = none) : ainsert l k v = l ++ [(k, v)] := by
  induction l with
  | nil => simp [ainsert]
  | cons hd tl ih =>
    by_cases hk : hd.1 = k
    · simp [alookup, hk] at h
    · simp [alookup, hk] at h
      simp [ainsert, hk, ih h]

theorem setErrorBulk_eq (em : JObj (List String)) (f : Form) :
    f.setErrorBulk em =
      { f with errors := em.foldl (fun e kv => ainsert e kv.1 kv.2.head?) f.errors } := by
  induction em generalizing f with
  | nil => simp [Form.setErrorBulk]
  | cons hd tl ih =>
    show (f.setErrorSingle hd.1 hd.2.head?).setErrorBulk tl = _
    rw [ih]
    simp [Form.setErrorSingle]

theorem alookup_append_single {β : Type} (acc : JObj β) (k1 k : String) (v1 : β)
    (h1 : alookup acc k = none) (h2 : k ≠ k1) :
    alookup (acc ++ [(k1, v1)]) k = none := by
  induction acc with
  | nil => simp [alookup, Ne.symm h2]
  | cons a rest ih =>
    by_cases ha : a.1 = k
    · simp [alookup, ha] at h1
    · simp [alookup, ha] at h1 ⊢
      exact ih h1

theorem foldl_ainsert_disjoint (em : JObj (List String))
    (acc : JObj (Option String))
    (hdisj : ∀ kv ∈ em, alookup acc kv.1 = none)
    (hnd : (akeys em).Nodup) :
    em.foldl (fun e kv => ainsert e kv.1 kv.2.head?) acc =
      acc ++ em.map (fun kv => (kv.1, kv.2.head?)) := by
  induction em generalizing acc with
  | nil => simp
  | cons hd tl ih =>
    have hhd : alookup acc hd.1 = none := hdisj hd (List.mem_cons_self hd tl)
    have hstep : ainsert acc hd.1 hd.2.head? = acc ++ [(hd.1, hd.2.head?)] :=
      ainsert_of_alookup_none acc hd.1 hd.2.head? hhd
    have hnd' : (akeys tl).Nodup := (List.nodup_cons.mp hnd).2
    have hmem : hd.1 ∉ akeys tl := (List.nodup_cons.mp hnd).1
    have hdisj' : ∀ kv ∈ tl, alookup (acc ++ [(hd.1, hd.2.head?)]) kv.1 = none := by
      intro kv hkv
      have h1 : alookup acc kv.1 = none := hdisj kv (List.mem_cons_of_mem hd hkv)
      have h2 : kv.1 ≠ hd.1 := by
        intro hcontra
        exact hmem (hcontra ▸ List.mem_map.mpr ⟨kv, hkv, rfl⟩)
      exact alookup_append_single acc hd.1 kv.1 hd.2.head? h1 h2
    calc (hd :: tl).foldl (fun e kv => ainsert e kv.1 kv.2.head?) acc
        = tl.foldl (fun e kv => ainsert e kv.1 kv.2.head?) (acc ++ [(hd.1, hd.2.head?)]) := by
          simp [hstep]
      _ = acc ++ [(hd.1, hd.2.head?)] ++ tl.map (fun kv => (kv.1, kv.2.head?)) :=
          ih (acc ++ [(hd.1, hd.2.head?)]) hdisj' hnd'
      _ = acc ++ (hd :: tl).map (fun kv => (kv.1, kv.2.head?)) := by simp

theorem alookup_map_head (em : JObj (List String)) (kv : String × List String)
    (hnd : (akeys em).Nodup) (hmem : kv ∈ em) :
    alookup (em.map (fun p => (p.1, p.2.head?))) kv.1 = some kv.2.head? := by
  induction em with
  | nil => simp at hmem
  | cons hd tl ih =>
    rcases List.mem_cons.mp hmem with heq | htl
    · subst heq
      simp [alookup]
    · have hmem1 : hd.1 ∉ akeys tl := (List.nodup_cons.mp hnd).1
      have hne : hd.1 ≠ kv.1 := by
        intro hcontra
        exact hmem1 (hcontra ▸ List.mem_map.mpr ⟨kv, htl, rfl⟩)
      simp [alookup, hne]
      exact ih (List.nodup_cons.mp hnd).2 htl

theorem reset_loop_preserves (keys : List String) (f : Form) :
    (keys.foldl (fun acc k =>
      match acc.getField k with
      | some v => acc.setField k v
      | none => acc) f).fieldsData = f.fieldsData ∧
    (keys.foldl (fun acc k =>
      match acc.getField k with
      | some v => acc.setField k v
      | none => acc) f).initialData = f.initialData := by
  induction keys generalizing f with
  | nil => exact ⟨rfl, rfl⟩
  | cons k ks ih =>
    cases hgf : f.getField k with
    | none => simpa [List.foldl, hgf] using ih f
    | some v =>
      have hins : ainsert f.fieldsData k v = f.fieldsData :=
        ainsert_of_alookup_eq f.fieldsData k v (by simpa [Form.getField] using hgf)
      have hfd : (f.setField k v).fieldsData = f.fieldsData := by
        simp [Form.setField, hins]
      have hid : (f.setField k v).initialData = f.initialData := rfl
      have step := ih (f.setField k v)
      refine ⟨?_, ?_⟩
      · simpa [List.foldl, hgf, hfd] using step.1
      · simpa [List.foldl, hgf, hid] using step.2

theorem reset_spec (f : Form) :
    f.reset.fieldsData = f.initialData ∧
    f.reset.errors = [] ∧
    f.reset.initialData = f.initialData := by
  unfold Form.reset
  have h := reset_loop_preserves
    (akeys ({ f with fieldsData := f.initialData } : Form).fieldsData)
    { f with fieldsData := f.initialData }
  exact ⟨by simp [Form.clearErrors, h.1], rfl, by simp [Form.clearErrors, h.2]⟩

theorem settleBranch_preserves (f : Form) (o : ResponseOption) (out : HttpOutcome) :
    (f.settleBranch o out).1.initialData = f.initialData ∧
    (f.settleBranch o out).1.fieldsData = f.fieldsData ∧
    (f.settleBranch o out).1.processing = f.processing := by
  rcases out with body | err
  · exact ⟨rfl, rfl, rfl⟩
  · rcases err with ⟨_ | ⟨status, data⟩⟩
    · exact ⟨rfl, rfl, rfl⟩
    · by_cases h : status = 422
      · subst h
        rcases data with _ | ⟨errs⟩
        · simp [Form.settleBranch]
        · rcases errs with _ | em
          · simp [Form.settleBranch]
          · simp [Form.settleBranch, setErrorBulk_eq]
      · simp [Form.settleBranch, h]

theorem settleBranch_no_finish (f : Form) (o : ResponseOption) (out : HttpOutcome) :
    Event.onFinish ∉ (f.settleBranch o out).2 := by
  rcases out with body | err
  · by_cases h : o.onSuccess <;> simp [Form.settleBranch, h]
  · rcases err with ⟨_ | ⟨status, data⟩⟩
    · by_cases h : o.onError <;> simp [Form.settleBranch, h]
    · by_cases h422 : status = 422
      · subst h422
        by_cases hv : o.onValidationErrors <;> simp [Form.settleBranch, hv]
      · by_cases h : o.onError <;> simp [Form.settleBranch, h422, h]

theorem applyOp_initialData (f : Form) (op : FormOp) :
    (f.applyOp op).initialData = f.initialData := by
  cases op with
  | write k v => rfl
  | setErr k m => rfl
  | setErrBulk em => simp [Form.applyOp, setErrorBulk_eq]
  | clearErrs => rfl
  | submit o out =>
    show (Form.requestSettle _ o out).1.initialData = _
    simpa [Form.requestSettle] using
      (settleBranch_preserves (Form.clearErrors { f with processing := true }) o out).1
  | doReset => exact (reset_spec f).2.2

theorem applyOps_initialData (f : Form) (ops : List FormOp) :
    (f.applyOps ops).initialData = f.initialData := by
  induction ops generalizing f with
  | nil => rfl
  | cons op rest ih =>
    have hstep : Form.applyOps f (op :: rest) = Form.applyOps (f.applyOp op) rest := rfl
    rw [hstep, ih (f.applyOp op), applyOp_initialData]

/-! ## Claim theorems -/

/-- Claim C1 (code bug): the claim states that `hasErrors` is false on a
freshly constructed form with at least one field, but the constructor
inserts `errors[key] = null` for every declared field and `hasErrors`
counts keys, so `hasErrors` is already true immediately after
construction. The other two parts of the claim do hold on the code:
`hasErrors` is false immediately after `reset()`, and true immediately
after a `setError` call with a non-null message. Evaluated at the failing
input, the one-field form created by `useForm` with field `name`. -/
theorem c1_fresh_form_hasErrors :
    (useForm [("name", JValue.str "")]).hasErrors = true ∧
    (useForm [("name", JValue.str "")]).reset.hasErrors = false ∧
    ((useForm [("name", JValue.str "")]).reset.setErrorSingle
      "name" (some "The name field is required.")).hasErrors = true := by
  decide

/-- Claim C6: for a declared field, reading the field's property returns
its current value, and writing a value through the property replaces the
stored value and removes that field's entry from the errors mapping. -/
theorem c6_field_accessors (f : Form) (k : String) (v : JValue) :
    f.getField k = alookup f.fieldsData k ∧
    (f.setField k v).getField k = some v ∧
    alookup (f.setField k v).fieldsData k = some v ∧
    ahas (f.setField k v).errors k = false := by
  refine ⟨rfl, alookup_ainsert_self _ _ _, alookup_ainsert_self _ _ _, ?_⟩
  show ahas (if ahas f.errors k then aerase f.errors k else f.errors) k = false
  by_cases h : ahas f.errors k
  · simp [h, ahas_aerase]
  · simp only [h, if_false, Bool.if_false_right]
    simpa using h

/-- Claim C7: `post`, `put` and `patch` issue a request whose config
carries the full current field mapping as its body, while `delete` issues
a request with no body, for every form state, URL, callback set and
outcome. -/
theorem c7_verb_payloads (f : Form) (g : GlobalState) (route : String)
    (o : ResponseOption) (out : HttpOutcome) :
    (f.post g route o out).config =
      { method := "post", url := route, data := some f.fields } ∧
    (f.put g route o out).config =
      { method := "put", url := route, data := some f.fields } ∧
    (f.patch g route o out).config =
      { method := "patch", url := route, data := some f.fields } ∧
    (f.delete g route o out).config =
      { method := "delete", url := route, data := none } :=
  ⟨rfl, rfl, rfl, rfl⟩

/-- Claim C9: `setError` inserts (or retains) the key even when it carries
no actual message — a single-form call with a null/omitted message stores
that empty value under the key, and a bulk-form call with an empty message
list stores the undefined first element under the key — and in each case
the key counts toward `hasErrors`, which returns true. -/
theorem c9_message_less_keys (f : Form) (k : String) :
    ahas (f.setErrorSingle k none).errors k = true ∧
    alookup (f.setErrorSingle k none).errors k = some none ∧
    (f.setErrorSingle k none).hasErrors = true ∧
    f.setErrorBulk [(k, [])] = f.setErrorSingle k none ∧
    alookup (f.setErrorBulk [(k, [])]).errors k = some none ∧
    (f.setErrorBulk [(k, [])]).hasErrors = true := by
  have h1 : alookup (ainsert f.errors k none) k = some none :=
    alookup_ainsert_self _ _ _
  have hb : f.setErrorBulk [(k, [])] = f.setErrorSingle k none := rfl
  have hlen : 0 < (ainsert f.errors k (none : Option String)).length :=
    ainsert_length_pos _ _ _
  have hhe : (f.setErrorSingle k none).hasErrors = true := by
    simp [Form.hasErrors, Form.setErrorSingle, akeys, hlen]
  exact ⟨by simp [ahas, Form.setErrorSingle, h1], h1, hhe, hb,
    by rw [hb]; exact h1, by rw [hb]; exact hhe⟩

/-- Claim C8 counterexample: the claim states that mutating the object
returned by the `fields` getter does not alter the form's internal state,
but the getter returns `this._fields` itself, so writing through it
changes the stored field value while the field's existing error entry
survives (the per-field error-clearing setter is bypassed). Concrete
input: a form with field `name`, value `a`, an error set on `name`, and a
write of `b` through the returned object. -/
theorem c8_counterexample :
    (((useForm [("name", JValue.str "a")]).setErrorSingle
        "name" (some "bad")).writeThroughFields "name" (JValue.str "b")).fieldsData ≠
      ((useForm [("name", JValue.str "a")]).setErrorSingle
        "name" (some "bad")).fieldsData ∧
    (((useForm [("name", JValue.str "a")]).setErrorSingle
        "name" (some "bad")).writeThroughFields "name" (JValue.str "b")).getField "name" =
      some (JValue.str "b") ∧
    ahas (((useForm [("name", JValue.str "a")]).setErrorSingle
        "name" (some "bad")).writeThroughFields "name" (JValue.str "b")).errors "name" = true := by
  decide

/-- Claim C8 as amended: the `fields` getter yields the current field
values, but it returns the live internal mapping rather than a defensive
copy — writing a value through the returned object changes the form's
stored field value while leaving the errors mapping (and the captured
initial snapshot) untouched, bypassing the per-field error-clearing. -/
theorem c8_live_fields_reference (f : Form) (k : String) (v : JValue) :
    f.fields = f.fieldsData ∧
    (f.writeThroughFields k v).getField k = some v ∧
    (f.writeThroughFields k v).errors = f.errors ∧
    (f.writeThroughFields k v).initialData = f.initialData :=
  ⟨rfl, alookup_ainsert_self _ _ _, rfl, rfl⟩

/-- Claim C3: for every submission, whatever the outcome and whichever
callbacks were supplied, the final form has `processing = false`, the
`onFinish` callback fires exactly once when supplied (and never
otherwise), it is the last callback invoked, and `processing` is false on
a freshly constructed form (before any submission). -/
theorem c3_finish_exactly_once (f : Form) (g : GlobalState) (m u : String)
    (d : Option (JObj JValue)) (o : ResponseOption) (out : HttpOutcome)
    (init : JObj JValue) :
    (f.request g m u d o out).form.processing = false ∧
    (f.request g m u d o out).events.count Event.onFinish =
      (if o.onFinish then 1 else 0) ∧
    (if o.onFinish then
      (f.request g m u d o out).events.getLast? = some Event.onFinish
     else True) ∧
    (useForm init).processing = false := by
  have hform : (f.request g m u d o out).form =
      { ((Form.clearErrors { f with processing := true }).settleBranch o out).1 with
        processing := false } := rfl
  have hev : (f.request g m u d o out).events =
      ((Form.clearErrors { f with processing := true }).settleBranch o out).2 ++
        (if o.onFinish then [Event.onFinish] else []) := rfl
  have hno : Event.onFinish ∉
      ((Form.clearErrors { f with processing := true }).settleBranch o out).2 :=
    settleBranch_no_finish _ o out
  refine ⟨by rw [hform], ?_, ?_, rfl⟩
  · rw [hev, List.count_append, List.count_eq_zero.mpr hno]
    by_cases ho : o.onFinish <;> simp [ho]
  · by_cases ho : o.onFinish
    · simp only [ho, if_true]
      rw [hev]
      simp [ho]
    · simp [ho]

/-- Claim C2 counterexample: the claim states that a 422 response with a
malformed/missing `errors` field invokes `onError` and not
`onValidationErrors`, but the catch handler routes every 422 response to
the validation branch: at the concrete input — a 422 rejection whose body
has no `errors` field, all four callbacks supplied — the code invokes
`onValidationErrors` (with the empty error mapping) and never `onError`. -/
theorem c2_counterexample :
    ((useForm [("email", JValue.str "")]).request ⟨none, 0⟩ "post" "/api/contact"
        (some (useForm [("email", JValue.str "")]).fields)
        ⟨true, true, true, true⟩
        (HttpOutcome.failure ⟨some ⟨422, some ⟨none⟩⟩⟩)).events =
      [Event.onValidationErrors [], Event.onFinish] ∧
    Event.onError ⟨some ⟨422, some ⟨none⟩⟩⟩ ∉
      ((useForm [("email", JValue.str "")]).request ⟨none, 0⟩ "post" "/api/contact"
        (some (useForm [("email", JValue.str "")]).fields)
        ⟨true, true, true, true⟩
        (HttpOutcome.failure ⟨some ⟨422, some ⟨none⟩⟩⟩)).events := by
  decide

/-- Claim C2 as amended: a failure with no response at all, or with a
non-422 status, invokes `onError` (if supplied) with the raw failure
object, populates no per-field errors, and does not invoke
`onValidationErrors`; a 422 response whose body lacks a recognizable
`errors` mapping instead takes the validation branch: it populates no
per-field errors, invokes `onValidationErrors` (if supplied) with the
resulting (empty) error mapping, and does not invoke `onError`. -/
theorem c2_amended_failure_routing (f : Form) (g : GlobalState) (m u : String)
    (d : Option (JObj JValue)) (o : ResponseOption) (err : AxiosErr) :
    (errOtherFailure err = true →
      (f.request g m u d o (HttpOutcome.failure err)).form.errors = [] ∧
      (f.request g m u d o (HttpOutcome.failure err)).events =
        (if o.onError then [Event.onError err] else []) ++
        (if o.onFinish then [Event.onFinish] else [])) ∧
    (errMalformed422 err = true →
      (f.request g m u d o (HttpOutcome.failure err)).form.errors = [] ∧
      (f.request g m u d o (HttpOutcome.failure err)).events =
        (if o.onValidationErrors then [Event.onValidationErrors []] else []) ++
        (if o.onFinish then [Event.onFinish] else [])) := by
  constructor
  · intro h
    rcases err with ⟨_ | ⟨status, data⟩⟩
    · exact ⟨rfl, rfl⟩
    · have hne : status ≠ 422 := by simpa [errOtherFailure] using h
      constructor
      · simp [Form.request, Form.requestSettle, Form.settleBranch, Form.clearErrors, hne]
      · simp [Form.request, Form.requestSettle, Form.settleBranch, Form.clearErrors, hne]
  · intro h
    rcases err with ⟨_ | ⟨status, data⟩⟩
    · simp [errMalformed422] at h
    · rcases data with _ | ⟨errs⟩
      · have h422 : status = 422 := by simpa [errMalformed422] using h
        subst h422
        constructor
        · simp [Form.request, Form.requestSettle, Form.settleBranch, Form.clearErrors]
        · simp [Form.request, Form.requestSettle, Form.settleBranch, Form.clearErrors]
      · rcases errs with _ | em
        · have h422 : status = 422 := by simpa [errMalformed422] using h
          subst h422
          constructor
          · simp [Form.request, Form.requestSettle, Form.settleBranch, Form.clearErrors]
          · simp [Form.request, Form.requestSettle, Form.settleBranch, Form.clearErrors]
        · exfalso
          simp [errMalformed422] at h

/-- Witness for claim C2's amended theorem: a network failure with no
response and a 422 rejection with a body lacking an `errors` field, both
with every callback supplied, evaluated concretely. -/
theorem c2_amended_failure_routing_witness :
    errOtherFailure ⟨none⟩ = true ∧
    errMalformed422 ⟨some ⟨422, none⟩⟩ = true ∧
    (((useForm [("email", JValue.str "")]).request ⟨none, 0⟩ "post" "/api/contact" none
        ⟨true, true, true, true⟩ (HttpOutcome.failure ⟨none⟩)).form.errors = [] ∧
      ((useForm [("email", JValue.str "")]).request ⟨none, 0⟩ "post" "/api/contact" none
        ⟨true, true, true, true⟩ (HttpOutcome.failure ⟨none⟩)).events =
        [Event.onError ⟨none⟩, Event.onFinish]) ∧
    (((useForm [("email", JValue.str "")]).request ⟨none, 0⟩ "post" "/api/contact" none
        ⟨true, true, true, true⟩ (HttpOutcome.failure ⟨some ⟨422, none⟩⟩)).form.errors = [] ∧
      ((useForm [("email", JValue.str "")]).request ⟨none, 0⟩ "post" "/api/contact" none
        ⟨true, true, true, true⟩ (HttpOutcome.failure ⟨some ⟨422, none⟩⟩)).events =
        [Event.onValidationErrors [], Event.onFinish]) :=
  ⟨rfl, rfl,
    (c2_amended_failure_routing (useForm [("email", JValue.str "")]) ⟨none, 0⟩
      "post" "/api/contact" none ⟨true, true, true, true⟩ ⟨none⟩).1 rfl,
    (c2_amended_failure_routing (useForm [("email", JValue.str "")]) ⟨none, 0⟩
      "post" "/api/contact" none ⟨true, true, true, true⟩ ⟨some ⟨422, none⟩⟩).2 rfl⟩

/-- Claim C4: when the request fails with a 422 response whose body has an
`errors` field mapping field names to non-empty message lists, the form's
error entry for each listed field is set to the first message of that
field's list (later messages discarded), and `onValidationErrors` (if
supplied) is invoked with the resulting error mapping. -/
theorem c4_validation_errors (f : Form) (g : GlobalState) (m u : String)
    (d : Option (JObj JValue)) (o : ResponseOption) (em : JObj (List String))
    (hnd : (akeys em).Nodup) (hne : ∀ kv ∈ em, kv.2 ≠ []) :
    (f.request g m u d o (HttpOutcome.failure ⟨some ⟨422, some ⟨some em⟩⟩⟩)).form.errors =
      em.map (fun kv => (kv.1, kv.2.head?)) ∧
    (∀ kv, (hkv : kv ∈ em) →
      alookup (f.request g m u d o
          (HttpOutcome.failure ⟨some ⟨422, some ⟨some em⟩⟩⟩)).form.errors kv.1 =
        some (some (kv.2.head (hne kv hkv)))) ∧
    (f.request g m u d o (HttpOutcome.failure ⟨some ⟨422, some ⟨some em⟩⟩⟩)).events =
      (if o.onValidationErrors then
        [Event.onValidationErrors (em.map (fun kv => (kv.1, kv.2.head?)))] else []) ++
      (if o.onFinish then [Event.onFinish] else []) := by
  have hbulk : ((Form.clearErrors { f with processing := true }).setErrorBulk em).errors =
      em.map (fun kv => (kv.1, kv.2.head?)) := by
    rw [setErrorBulk_eq]
    show em.foldl _ ([] : JObj (Option String)) = _
    simpa using foldl_ainsert_disjoint em [] (fun kv _ => rfl) hnd
  have herr : (f.request g m u d o
      (HttpOutcome.failure ⟨some ⟨422, some ⟨some em⟩⟩⟩)).form.errors =
      ((Form.clearErrors { f with processing := true }).setErrorBulk em).errors := rfl
  have hev : (f.request g m u d o
      (HttpOutcome.failure ⟨some ⟨422, some ⟨some em⟩⟩⟩)).events =
      (if o.onValidationErrors then
        [Event.onValidationErrors
          ((Form.clearErrors { f with processing := true }).setErrorBulk em).errors]
       else []) ++
      (if o.onFinish then [Event.onFinish] else []) := rfl
  refine ⟨herr.trans hbulk, ?_, ?_⟩
  · intro kv hkv
    rw [herr.trans hbulk]
    have h1 := alookup_map_head em kv hnd hkv
    rw [List.head?_eq_head (hne kv hkv)] at h1
    exact h1
  · rw [hbulk] at hev
    exact hev

/-- Witness for claim C4: a 422 rejection carrying errors for `email`
with two messages; only the first message is kept and surfaced. -/
theorem c4_validation_errors_witness :
    (akeys [("email", ["A", "B"])]).Nodup ∧
    (∀ kv ∈ ([("email", ["A", "B"])] : JObj (List String)), kv.2 ≠ []) ∧
    ((useForm [("email", JValue.str "")]).request ⟨none, 0⟩ "post" "/api/contact" none
        ⟨true, true, true, true⟩
        (HttpOutcome.failure ⟨some ⟨422, some ⟨some [("email", ["A", "B"])]⟩⟩⟩)).form.errors =
      [("email", some "A")] ∧
    ((useForm [("email", JValue.str "")]).request ⟨none, 0⟩ "post" "/api/contact" none
        ⟨true, true, true, true⟩
        (HttpOutcome.failure ⟨some ⟨422, some ⟨some [("email", ["A", "B"])]⟩⟩⟩)).events =
      [Event.onValidationErrors [("email", some "A")], Event.onFinish] :=
  ⟨by decide, by decide,
    (c4_validation_errors (useForm [("email", JValue.str "")]) ⟨none, 0⟩ "post"
      "/api/contact" none ⟨true, true, true, true⟩ [("email", ["A", "B"])]
      (by decide) (by decide)).1,
    (c4_validation_errors (useForm [("email", JValue.str "")]) ⟨none, 0⟩ "post"
      "/api/contact" none ⟨true, true, true, true⟩ [("email", ["A", "B"])]
      (by decide) (by decide)).2.2⟩

/-- Claim C5: after any sequence of declared-field writes, setError calls,
clearErrors, settled submissions and resets, `reset()` restores the live
field mapping (and hence every per-field property read) to exactly the
mapping captured at construction, and clears all error entries. -/
theorem c5_reset_restores_initial (init : JObj JValue) (ops : List FormOp)
    (h : opsWriteOk (akeys init) ops = true) :
    ((useForm init).applyOps ops).reset.fieldsData = init ∧
    (∀ k, ((useForm init).applyOps ops).reset.getField k = alookup init k) ∧
    ((useForm init).applyOps ops).reset.errors = [] ∧
    ((useForm init).applyOps ops).reset.hasErrors = false := by
  have hinit : ((useForm init).applyOps ops).initialData = init :=
    applyOps_initialData (useForm init) ops
  have hr := reset_spec ((useForm init).applyOps ops)
  have hfd : ((useForm init).applyOps ops).reset.fieldsData = init := hr.1.trans hinit
  refine ⟨hfd, ?_, hr.2.1, ?_⟩
  · intro k
    simp [Form.getField, hfd]
  · simp [Form.hasErrors, hr.2.1, akeys]

/-- Witness for claim C5: a two-field form mutated by a field write, a
setError, a settled 422 submission and another field write, then reset. -/
theorem c5_reset_restores_initial_witness :
    opsWriteOk (akeys [("email", JValue.str "e0"), ("name", JValue.str "n0")])
      [FormOp.write "email" (JValue.str "x"),
       FormOp.setErr "name" (some "bad"),
       FormOp.submit ⟨true, true, true, true⟩
         (HttpOutcome.failure ⟨some ⟨422, some ⟨some [("email", ["E1", "E2"])]⟩⟩⟩),
       FormOp.write "name" (JValue.str "y")] = true ∧
    (((useForm [("email", JValue.str "e0"), ("name", JValue.str "n0")]).applyOps
      [FormOp.write "email" (JValue.str "x"),
       FormOp.setErr "name" (some "bad"),
       FormOp.submit ⟨true, true, true, true⟩
         (HttpOutcome.failure ⟨some ⟨422, some ⟨some [("email", ["E1", "E2"])]⟩⟩⟩),
       FormOp.write "name" (JValue.str "y")]).reset.fieldsData =
      [("email", JValue.str "e0"), ("name", JValue.str "n0")] ∧
    ((useForm [("email", JValue.str "e0"), ("name", JValue.str "n0")]).applyOps
      [FormOp.write "email" (JValue.str "x"),
       FormOp.setErr "name" (some "bad"),
       FormOp.submit ⟨true, true, true, true⟩
         (HttpOutcome.failure ⟨some ⟨422, some ⟨some [("email", ["E1", "E2"])]⟩⟩⟩),
       FormOp.write "name" (JValue.str "y")]).reset.errors = [] ∧
    ((useForm [("email", JValue.str "e0"), ("name", JValue.str "n0")]).applyOps
      [FormOp.write "email" (JValue.str "x"),
       FormOp.setErr "name" (some "bad"),
       FormOp.submit ⟨true, true, true, true⟩
         (HttpOutcome.failure ⟨some ⟨422, some ⟨some [("email", ["E1", "E2"])]⟩⟩⟩),
       FormOp.write "name" (JValue.str "y")]).reset.hasErrors = false) :=
  ⟨by decide,
    (c5_reset_restores_initial
      [("email", JValue.str "e0"), ("name", JValue.str "n0")]
      [FormOp.write "email" (JValue.str "x"),
       FormOp.setErr "name" (some "bad"),
       FormOp.submit ⟨true, true, true, true⟩
         (HttpOutcome.failure ⟨some ⟨422, some ⟨some [("email", ["E1", "E2"])]⟩⟩⟩),
       FormOp.write "name" (JValue.str "y")] (by decide)).1,
    (c5_reset_restores_initial
      [("email", JValue.str "e0"), ("name", JValue.str "n0")]
      [FormOp.write "email" (JValue.str "x"),
       FormOp.setErr "name" (some "bad"),
       FormOp.submit ⟨true, true, true, true⟩
         (HttpOutcome.failure ⟨some ⟨422, some ⟨some [("email", ["E1", "E2"])]⟩⟩⟩),
       FormOp.write "name" (JValue.str "y")] (by decide)).2.2.1,
    (c5_reset_restores_initial
      [("email", JValue.str "e0"), ("name", JValue.str "n0")]
      [FormOp.write "email" (JValue.str "x"),
       FormOp.setErr "name" (some "bad"),
       FormOp.submit ⟨true, true, true, true⟩
         (HttpOutcome.failure ⟨some ⟨422, some ⟨some [("email", ["E1", "E2"])]⟩⟩⟩),
       FormOp.write "name" (JValue.str "y")] (by decide)).2.2.2⟩

/-- Claim C10: the HTTP client lives in the single static slot shared by
all form instances: when the slot is empty a submission allocates a fresh
default client and stores it, every submission run with a populated slot
uses exactly the stored client and leaves the global state unchanged, and
the global setter replaces the slot's content. -/
theorem c10_shared_client (gstart : GlobalState) (h : gstart.http = none) :
    (ensureHttp gstart).2 = gstart.nextClient ∧
    (ensureHttp gstart).1.http = some gstart.nextClient ∧
    (∀ (f : Form) (m u : String) (d : Option (JObj JValue)) (o : ResponseOption)
        (out : HttpOutcome),
      (f.request gstart m u d o out).client = gstart.nextClient ∧
      (f.request gstart m u d o out).globalAfter.http = some gstart.nextClient) ∧
    (∀ (g2 : GlobalState) (c : Nat), g2.http = some c →
      ∀ (f : Form) (m u : String) (d : Option (JObj JValue)) (o : ResponseOption)
          (out : HttpOutcome),
        (f.request g2 m u d o out).client = c ∧
        (f.request g2 m u d o out).globalAfter = g2) ∧
    (∀ (g3 : GlobalState) (c : Nat), (setFormAxios g3 c).http = some c) := by
  obtain ⟨ghttp, gnext⟩ := gstart
  simp only at h
  subst h
  refine ⟨rfl, rfl, fun f m u d o out => ⟨rfl, rfl⟩, ?_, fun g3 c => rfl⟩
  intro g2 c hc f m u d o out
  obtain ⟨g2http, g2next⟩ := g2
  simp only at hc
  subst hc
  exact ⟨rfl, rfl⟩

/-- Witness for claim C10: a global state with an empty slot and fresh-id
counter 7, and a reuse instance with the slot holding client 5. -/
theorem c10_shared_client_witness :
    (⟨none, 7⟩ : GlobalState).http = none ∧
    ((ensureHttp ⟨none, 7⟩).2 = 7 ∧
      (ensureHttp ⟨none, 7⟩).1.http = some 7 ∧
      (∀ (f : Form) (m u : String) (d : Option (JObj JValue)) (o : ResponseOption)
          (out : HttpOutcome),
        (f.request ⟨none, 7⟩ m u d o out).client = 7 ∧
        (f.request ⟨none, 7⟩ m u d o out).globalAfter.http = some 7) ∧
      (∀ (g2 : GlobalState) (c : Nat), g2.http = some c →
        ∀ (f : Form) (m u : String) (d : Option (JObj JValue)) (o : ResponseOption)
            (out : HttpOutcome),
          (f.request g2 m u d o out).client = c ∧
          (f.request g2 m u d o out).globalAfter = g2) ∧
      (∀ (g3 : GlobalState) (c : Nat), (setFormAxios g3 c).http = some c)) ∧
    ((useForm [("email", JValue.str "e0")]).request ⟨some 5, 9⟩ "post" "/api/contact"
        none ⟨false, false, false, false⟩ (HttpOutcome.success JValue.null)).client = 5 ∧
    ((useForm [("email", JValue.str "e0")]).request ⟨some 5, 9⟩ "post" "/api/contact"
        none ⟨false, false, false, false⟩
        (HttpOutcome.success JValue.null)).globalAfter = ⟨some 5, 9⟩ :=
  ⟨rfl, c10_shared_client ⟨none, 7⟩ rfl,
    ((c10_shared_client ⟨none, 7⟩ rfl).2.2.2.1 ⟨some 5, 9⟩ 5 rfl
      (useForm [("email", JValue.str "e0")]) "post" "/api/contact" none
      ⟨false, false, false, false⟩ (HttpOutcome.success JValue.null)).1,
    ((c10_shared_client ⟨none, 7⟩ rfl).2.2.2.1 ⟨some 5, 9⟩ 5 rfl
      (useForm [("email", JValue.str "e0")]) "post" "/api/contact" none
      ⟨false, false, false, false⟩ (HttpOutcome.success JValue.null)).2⟩
